import Mathlib

/-!
Verification development for the `news_scraper` library
(`news_scraper/news_scraper.py`): a shallow embedding of its data model
(`NewsArticle`), its extraction strategies (generic, NYTimes, BBC), its URL
discovery loops, its orchestration (`fetch_article`, `fetch_latest_articles`)
and its rate limiter, together with theorems about them.

External capabilities consumed by the code (HTTP transport, the
BeautifulSoup HTML parser, `datetime.fromisoformat`, the wall clock) are
embedded as explicit parameters or as executable models; everything else is
translated directly from the Python source.
-/

namespace NS

/-! ## String helpers modelling Python `str` primitives -/

/-- Python whitespace characters recognised by `str.strip()`
(ASCII subset; the code only ever strips HTML text, which is ASCII-spaced). -/
def isPySpace (c : Char) : Bool :=
  c = ' ' || c = '\t' || c = '\n' || c = '\r' || c = '\x0b' || c = '\x0c'

/-- Python `s.strip()`: drop leading and trailing whitespace. -/
def pyStrip (s : String) : String :=
  ⟨((s.data.dropWhile isPySpace).reverse.dropWhile isPySpace).reverse⟩

/-- Python `s.startswith(p)`. -/
def pyStartsWith (s p : String) : Bool :=
  p.data.isPrefixOf s.data

/-- Is `n` a contiguous sublist of the second argument? -/
def listIsInfix (n : List Char) : List Char → Bool
  | [] => n.isEmpty
  | c :: rest => n.isPrefixOf (c :: rest) || listIsInfix n rest

/-- Python `n in s` (substring containment). -/
def pyContains (s n : String) : Bool :=
  listIsInfix n.data s.data

/-- Scanner for `replaceList`: while `skip > 0` the character belongs to
an already replaced occurrence and is dropped; at `skip = 0` a match of
`pat` emits `rep` and schedules the rest of the match for dropping. -/
def replaceListAux (pat rep : List Char) : List Char → Nat → List Char
  | [], _ => []
  | c :: rest, skip =>
    match skip with
    | k + 1 => replaceListAux pat rep rest k
    | 0 =>
      if pat.isPrefixOf (c :: rest) ∧ pat ≠ [] then
        rep ++ replaceListAux pat rep rest (pat.length - 1)
      else
        c :: replaceListAux pat rep rest 0

/-- Python `s.replace(pat, rep)` on character lists: replace every
non-overlapping occurrence of `pat`, left to right (`pat` nonempty). -/
def replaceList (pat rep cs : List Char) : List Char :=
  replaceListAux pat rep cs 0

/-- Python `s.replace(pat, rep)`. -/
def pyReplace (s pat rep : String) : String :=
  ⟨replaceList pat.data rep.data s.data⟩

/-- Python `' '.join(xs)`. -/
def joinSpace (xs : List String) : String :=
  String.intercalate " " xs

/-! ## HTML model (the BeautifulSoup capability)

A parsed HTML document is a forest of nodes; `find` returns the first
element in document (preorder) order satisfying the query, `find_all`
returns all of them, `.text` concatenates all descendant string nodes. -/

/-- A parsed HTML node: an element with tag, attributes and children,
or a text node. -/
inductive HNode where
  | elem (tag : String) (attrs : List (String × String)) (children : List HNode)
  | text (s : String)

/-- The attribute value for key `k`, if present (`tag.get(k)`). -/
def getAttr (n : HNode) (k : String) : Option String :=
  match n with
  | .elem _ attrs _ => (attrs.find? (fun p => p.1 = k)).map (fun p => p.2)
  | .text _ => none

/-- Does the node carry attribute `k` (BeautifulSoup `attr=True` filter)? -/
def hasAttr (n : HNode) (k : String) : Bool :=
  (getAttr n k).isSome

/-- BeautifulSoup attribute matching: for `class` the query value must be
one of the whitespace-separated classes, otherwise the value must be equal. -/
def attrMatches (n : HNode) (k v : String) : Bool :=
  match getAttr n k with
  | none => false
  | some w => if k = "class" then (w.splitOn " ").contains v else w = v

/-- Is `n` an element with tag `t`? -/
def isTag (t : String) (n : HNode) : Bool :=
  match n with
  | .elem tg _ _ => tg = t
  | .text _ => false

/-- The children of a node (empty for text nodes). -/
def HNode.children : HNode → List HNode
  | .elem _ _ c => c
  | .text _ => []

mutual

/-- First node in preorder under `n` (including `n`) satisfying `p`. -/
def findNode (p : HNode → Bool) : HNode → Option HNode
  | .text s => if p (.text s) then some (.text s) else none
  | .elem t a c =>
    if p (.elem t a c) then some (.elem t a c) else findList p c

/-- First node in preorder in the forest satisfying `p`
(BeautifulSoup `soup.find`). -/
def findList (p : HNode → Bool) : List HNode → Option HNode
  | [] => none
  | n :: rest =>
    match findNode p n with
    | some r => some r
    | none => findList p rest

end

mutual

/-- All nodes in preorder under `n` (including `n`) satisfying `p`. -/
def findAllNode (p : HNode → Bool) : HNode → List HNode
  | .text s => if p (.text s) then [.text s] else []
  | .elem t a c =>
    (if p (.elem t a c) then [HNode.elem t a c] else []) ++ findAllList p c

/-- All nodes in preorder in the forest satisfying `p`
(BeautifulSoup `soup.find_all`). -/
def findAllList (p : HNode → Bool) : List HNode → List HNode
  | [] => []
  | n :: rest => findAllNode p n ++ findAllList p rest

end

mutual

/-- BeautifulSoup `.text`: concatenation of all descendant strings. -/
def nodeText : HNode → String
  | .text s => s
  | .elem _ _ c => listText c

/-- `.text` of a forest, in document order. -/
def listText : List HNode → String
  | [] => ""
  | n :: rest => nodeText n ++ listText rest

end

/-! ## Timestamps (the `datetime` capability)

`datetime` values are modelled at second resolution with an optional UTC
offset in minutes (`None` = naive). `isoformat` and `fromisoformat` are
executable models of the stdlib functions the source calls, restricted to
the second-resolution grammar `YYYY-MM-DD[THH:MM:SS[±HH:MM]]`. -/

/-- A Python `datetime` value (second resolution; `tzOffsetMinutes = none`
means a naive datetime, `some m` an offset of `m` minutes from UTC). -/
structure PyDatetime where
  year : Nat
  month : Nat
  day : Nat
  hour : Nat
  minute : Nat
  second : Nat
  tzOffsetMinutes : Option Int
deriving DecidableEq, Repr

/-- Is `y` a Gregorian leap year? -/
def isLeap (y : Nat) : Bool :=
  y % 4 = 0 && (y % 100 ≠ 0 || y % 400 = 0)

/-- Number of days in month `m` of year `y`. -/
def daysInMonth (y m : Nat) : Nat :=
  if m = 2 then (if isLeap y then 29 else 28)
  else if m = 4 ∨ m = 6 ∨ m = 9 ∨ m = 11 then 30
  else 31

/-- The range invariant `datetime` enforces on construction. -/
def PyDatetime.valid (d : PyDatetime) : Prop :=
  1 ≤ d.year ∧ d.year ≤ 9999 ∧ 1 ≤ d.month ∧ d.month ≤ 12 ∧
  1 ≤ d.day ∧ d.day ≤ daysInMonth d.year d.month ∧
  d.hour ≤ 23 ∧ d.minute ≤ 59 ∧ d.second ≤ 59 ∧
  ∀ m ∈ d.tzOffsetMinutes, -1439 ≤ m ∧ m ≤ 1439

instance (d : PyDatetime) : Decidable d.valid := by
  unfold PyDatetime.valid; infer_instance

/-- The decimal digit character for `k ≤ 9`. -/
def digitChar (k : Nat) : Char :=
  Char.ofNat (48 + k)

/-- Two-digit zero-padded rendering of `n ≤ 99` (`%02d`). -/
def digits2 (n : Nat) : List Char :=
  [digitChar (n / 10), digitChar (n % 10)]

/-- Four-digit zero-padded rendering of `n ≤ 9999` (`%04d`). -/
def digits4 (n : Nat) : List Char :=
  digits2 (n / 100) ++ digits2 (n % 100)

/-- The rendered UTC-offset suffix (`±HH:MM`, empty for naive values). -/
def offsetChars : Option Int → List Char
  | none => []
  | some m =>
    (if m < 0 then '-' else '+') ::
      (digits2 (m.natAbs / 60) ++ ':' :: digits2 (m.natAbs % 60))

/-- The time-of-day part of `isoformat` (`HH:MM:SS` plus offset), as
characters. -/
def timeChars (d : PyDatetime) : List Char :=
  digits2 d.hour ++ (':' :: (digits2 d.minute ++ (':' :: (digits2 d.second ++
    offsetChars d.tzOffsetMinutes))))

/-- `datetime.isoformat()` at second resolution, as characters. -/
def isoformatChars (d : PyDatetime) : List Char :=
  digits4 d.year ++ ('-' :: (digits2 d.month ++ ('-' :: (digits2 d.day ++
    ('T' :: timeChars d)))))

/-- `datetime.isoformat()` at second resolution. -/
def isoformat (d : PyDatetime) : String :=
  ⟨isoformatChars d⟩

/-- Parse exactly two decimal digits, returning the value and the rest. -/
def parse2 : List Char → Option (Nat × List Char)
  | a :: b :: rest =>
    if a.isDigit ∧ b.isDigit then
      some ((a.toNat - 48) * 10 + (b.toNat - 48), rest)
    else none
  | _ => none

/-- Parse exactly four decimal digits, returning the value and the rest. -/
def parse4 (cs : List Char) : Option (Nat × List Char) :=
  match parse2 cs with
  | none => none
  | some (a, r) =>
    match parse2 r with
    | none => none
    | some (b, r') => some (a * 100 + b, r')

/-- Consume one expected character. -/
def expectChar (c : Char) : List Char → Option (List Char)
  | x :: rest => if x = c then some rest else none
  | [] => none

/-- The UTC-offset tail of the ISO grammar (`±HH:MM` or nothing). -/
def parseOffsetPart (cs : List Char) : Option (Option Int) :=
  match cs with
  | [] => some none
  | sgn :: r1 =>
    if sgn = '+' ∨ sgn = '-' then
      match parse2 r1 with
      | none => none
      | some (oh, r2) =>
        match expectChar ':' r2 with
        | none => none
        | some r3 =>
          match parse2 r3 with
          | none => none
          | some (om, r4) =>
            if r4 = [] ∧ oh ≤ 23 ∧ om ≤ 59 then
              some (some (if sgn = '+' then (oh * 60 + om : Int)
                          else -(oh * 60 + om : Int)))
            else none
    else none

/-- The time-of-day and offset part of the ISO grammar, given the date. -/
def parseTimePart (y mo d : Nat) (cs : List Char) : Option PyDatetime :=
  match parse2 cs with
  | none => none
  | some (h, r1) =>
    match expectChar ':' r1 with
    | none => none
    | some r2 =>
      match parse2 r2 with
      | none => none
      | some (mi, r3) =>
        match expectChar ':' r3 with
        | none => none
        | some r4 =>
          match parse2 r4 with
          | none => none
          | some (s, r5) =>
            if h ≤ 23 ∧ mi ≤ 59 ∧ s ≤ 59 then
              match parseOffsetPart r5 with
              | none => none
              | some off => some ⟨y, mo, d, h, mi, s, off⟩
            else none

/-- Model of `datetime.fromisoformat` on characters:
`YYYY-MM-DD[THH:MM:SS[±HH:MM]]` (second resolution, `T` or space
separator); anything else is a `ValueError`, i.e. `none`. -/
def fromisoChars (cs : List Char) : Option PyDatetime :=
  match parse4 cs with
  | none => none
  | some (y, r1) =>
    match expectChar '-' r1 with
    | none => none
    | some r2 =>
      match parse2 r2 with
      | none => none
      | some (mo, r3) =>
        match expectChar '-' r3 with
        | none => none
        | some r4 =>
          match parse2 r4 with
          | none => none
          | some (d, r5) =>
            if 1 ≤ y ∧ 1 ≤ mo ∧ mo ≤ 12 ∧ 1 ≤ d ∧ d ≤ daysInMonth y mo then
              match r5 with
              | [] => some ⟨y, mo, d, 0, 0, 0, none⟩
              | sep :: r6 =>
                if sep = 'T' ∨ sep = ' ' then parseTimePart y mo d r6 else none
            else none

/-- Model of `datetime.fromisoformat`. -/
def fromisoformat (s : String) : Option PyDatetime :=
  fromisoChars s.data

/-! ## The `NewsArticle` record and its flat serialization -/

/-- `NewsArticle` (news_scraper.py, lines 37-84). `__init__` stores every
argument; `categories or []` maps `None` to `[]` (and is the identity on
lists, since `[] or []` is `[]`), so a plain list field is faithful. -/
structure NewsArticle where
  title : String
  content : String
  url : String
  source : String
  author : Option String
  date : Option PyDatetime
  summary : Option String
  categories : List String
deriving DecidableEq, Repr

/-- The flat key-value record produced by `NewsArticle.to_dict`. -/
structure ArticleDict where
  title : String
  content : String
  url : String
  source : String
  author : Option String
  date : Option String
  summary : Option String
  categories : List String
deriving DecidableEq, Repr

/-- `NewsArticle.to_dict` (lines 69-80): each field copied, the date as
`self.date.isoformat() if self.date else None`. -/
def NewsArticle.to_dict (a : NewsArticle) : ArticleDict :=
  { title := a.title, content := a.content, url := a.url, source := a.source,
    author := a.author, date := a.date.map isoformat,
    summary := a.summary, categories := a.categories }

/-- Modelled from the spec: the repository has no deserializer; spec §6/§8
require a companion deserialization of the flat record mapping
`title, content, url, source, author, date (ISO-8601 text or absent),
summary, categories` back to an Article, parsing the date text. -/
def from_dict (d : ArticleDict) : Option NewsArticle :=
  match d.date with
  | none =>
    some { title := d.title, content := d.content, url := d.url,
           source := d.source, author := d.author, date := none,
           summary := d.summary, categories := d.categories }
  | some s =>
    match fromisoformat s with
    | none => none
    | some ts =>
      some { title := d.title, content := d.content, url := d.url,
             source := d.source, author := d.author, date := some ts,
             summary := d.summary, categories := d.categories }

/-! ## Extraction strategies

Direct translations of the `_extract_*` methods of `NewsScraper`,
`NYTimesScraper` and `BBCScraper`. A "soup" is the parsed document forest. -/

/-- `soup.find(t)`. -/
def findTag (t : String) (soup : List HNode) : Option HNode :=
  findList (isTag t) soup

/-- `soup.find(t, {k: v})`. -/
def findTagAttr (t k v : String) (soup : List HNode) : Option HNode :=
  findList (fun n => isTag t n && attrMatches n k v) soup

/-- `soup.find_all(t)`. -/
def findAllTag (t : String) (soup : List HNode) : List HNode :=
  findAllList (isTag t) soup

/-- `soup.find_all(t, {k: v})`. -/
def findAllTagAttr (t k v : String) (soup : List HNode) : List HNode :=
  findAllList (fun n => isTag t n && attrMatches n k v) soup

namespace NewsScraper

/-- `NewsScraper._extract_title` (lines 242-245). -/
def extract_title (soup : List HNode) : String :=
  match findTag "h1" soup with
  | some title_tag => pyStrip (nodeText title_tag)
  | none => "Unknown Title"

/-- `NewsScraper._extract_content` (lines 247-250). -/
def extract_content (soup : List HNode) : String :=
  joinSpace ((findAllTag "p" soup).map (fun p => pyStrip (nodeText p)))

/-- `NewsScraper._extract_author` (lines 252-254). -/
def extract_author (_soup : List HNode) : Option String := none

/-- `NewsScraper._extract_date` (lines 256-258). -/
def extract_date (_soup : List HNode) : Option PyDatetime := none

/-- `NewsScraper._extract_summary` (lines 260-262). -/
def extract_summary (_soup : List HNode) : Option String := none

/-- `NewsScraper._extract_categories` (lines 264-266). -/
def extract_categories (_soup : List HNode) : List String := []

end NewsScraper

namespace NYTimesScraper

/-- `NYTimesScraper._extract_title` (lines 293-298): headline-testid `h1`,
falling back to any `h1`. -/
def extract_title (soup : List HNode) : String :=
  let title_tag :=
    match findTagAttr "h1" "data-testid" "headline" soup with
    | some t => some t
    | none => findTag "h1" soup
  match title_tag with
  | some t => pyStrip (nodeText t)
  | none => "Unknown Title"

/-- The paragraph nodes `NYTimesScraper._extract_content` joins: the
`articleBody` section's paragraphs, else the `css-axufdj` paragraphs. -/
def contentBlocks (soup : List HNode) : List HNode :=
  match findTagAttr "section" "name" "articleBody" soup with
  | some article_section => findAllTag "p" article_section.children
  | none => findAllTagAttr "p" "class" "css-axufdj" soup

/-- `NYTimesScraper._extract_content` (lines 300-308). -/
def extract_content (soup : List HNode) : String :=
  match findTagAttr "section" "name" "articleBody" soup with
  | some article_section =>
    joinSpace ((findAllTag "p" article_section.children).map
      (fun p => pyStrip (nodeText p)))
  | none =>
    joinSpace ((findAllTagAttr "p" "class" "css-axufdj" soup).map
      (fun p => pyStrip (nodeText p)))

/-- `NYTimesScraper._extract_author` (lines 310-315). -/
def extract_author (soup : List HNode) : Option String :=
  let author_tag :=
    match findTagAttr "span" "itemprop" "name" soup with
    | some t => some t
    | none => findTagAttr "span" "class" "byline-author" soup
  match author_tag with
  | some t => some (pyStrip (nodeText t))
  | none => none

/-- `NYTimesScraper._extract_date` (lines 317-325): the first `time` tag's
truthy `datetime` attribute, `Z` replaced by `+00:00`, ISO-parsed; any
parse failure is caught and yields `None`. -/
def extract_date (soup : List HNode) : Option PyDatetime :=
  match findTag "time" soup with
  | none => none
  | some date_tag =>
    match getAttr date_tag "datetime" with
    | none => none
    | some v =>
      if v = "" then none
      else fromisoformat (pyReplace v "Z" "+00:00")

/-- `NYTimesScraper._extract_summary` (lines 327-332). -/
def extract_summary (soup : List HNode) : Option String :=
  let summary_tag :=
    match findTagAttr "p" "id" "article-summary" soup with
    | some t => some t
    | none => findTagAttr "p" "class" "css-w6ymp8" soup
  match summary_tag with
  | some t => some (pyStrip (nodeText t))
  | none => none

/-- `NYTimesScraper._extract_categories` (lines 334-347). -/
def extract_categories (soup : List HNode) : List String :=
  let fromSection :=
    match findTagAttr "meta" "property" "article:section" soup with
    | some tag =>
      match getAttr tag "content" with
      | some c => if c = "" then [] else [c]
      | none => []
    | none => []
  let fromTags :=
    (findAllTagAttr "meta" "property" "article:tag" soup).filterMap
      (fun tag =>
        match getAttr tag "content" with
        | some c => if c = "" then none else some c
        | none => none)
  fromSection ++ fromTags

end NYTimesScraper

namespace BBCScraper

/-- `BBCScraper._extract_title` (lines 383-386). -/
def extract_title (soup : List HNode) : String :=
  match findTagAttr "h1" "id" "main-heading" soup with
  | some t => pyStrip (nodeText t)
  | none => "Unknown Title"

/-- The paragraph nodes `BBCScraper._extract_content` joins: the first
`article` element's paragraphs, else nothing. -/
def contentBlocks (soup : List HNode) : List HNode :=
  match findTag "article" soup with
  | some article_body => findAllTag "p" article_body.children
  | none => []

/-- `BBCScraper._extract_content` (lines 388-394). -/
def extract_content (soup : List HNode) : String :=
  match findTag "article" soup with
  | some article_body =>
    joinSpace ((findAllTag "p" article_body.children).map
      (fun p => pyStrip (nodeText p)))
  | none => ""

/-- `BBCScraper._extract_author` (lines 396-399). -/
def extract_author (soup : List HNode) : Option String :=
  match findTagAttr "div" "class" "ssrcss-68pt20-Text-TextContributorName" soup with
  | some t => some (pyStrip (nodeText t))
  | none => none

/-- `BBCScraper._extract_date` (lines 401-409): identical in structure to
the NYTimes variant. -/
def extract_date (soup : List HNode) : Option PyDatetime :=
  match findTag "time" soup with
  | none => none
  | some time_tag =>
    match getAttr time_tag "datetime" with
    | none => none
    | some v =>
      if v = "" then none
      else fromisoformat (pyReplace v "Z" "+00:00")

end BBCScraper

/-! ## HTTP fetching and orchestration

The network is an oracle `http : String → Except String HttpResponse`
(`.error` = a transport exception from `requests.get`); response bodies
come already parsed (the BeautifulSoup capability). The pacing and
user-agent side effects of `_make_request` are modelled separately below
(`respect_rate_limit`); they do not affect the returned value. -/

/-- An HTTP response: status code and parsed body. -/
structure HttpResponse where
  status : Nat
  body : List HNode

/-- `response.raise_for_status()`: raises for any 4xx/5xx status. -/
def raise_for_status (r : HttpResponse) : Except String HttpResponse :=
  if 400 ≤ r.status ∧ r.status ≤ 599 then
    .error ("HTTP error " ++ toString r.status ++ " for url")
  else .ok r

/-- `NewsScraper._make_request` (lines 151-175): issue the request and
raise for non-2xx statuses; transport errors propagate. -/
def make_request (http : String → Except String HttpResponse) (url : String) :
    Except String HttpResponse := do
  let r ← http url
  raise_for_status r

/-- The per-source extraction strategy consumed by `fetch_article`. -/
structure Extractors where
  title : List HNode → String
  content : List HNode → String
  author : List HNode → Option String
  date : List HNode → Option PyDatetime
  summary : List HNode → Option String
  categories : List HNode → List String

/-- The generic `NewsScraper` extraction strategy. -/
def genericExtractors : Extractors :=
  { title := NewsScraper.extract_title, content := NewsScraper.extract_content,
    author := NewsScraper.extract_author, date := NewsScraper.extract_date,
    summary := NewsScraper.extract_summary,
    categories := NewsScraper.extract_categories }

/-- The `NYTimesScraper` extraction strategy. -/
def nytExtractors : Extractors :=
  { title := NYTimesScraper.extract_title,
    content := NYTimesScraper.extract_content,
    author := NYTimesScraper.extract_author,
    date := NYTimesScraper.extract_date,
    summary := NYTimesScraper.extract_summary,
    categories := NYTimesScraper.extract_categories }

/-- The `BBCScraper` extraction strategy (unoverridden methods inherit the
generic ones). -/
def bbcExtractors : Extractors :=
  { title := BBCScraper.extract_title, content := BBCScraper.extract_content,
    author := BBCScraper.extract_author, date := BBCScraper.extract_date,
    summary := NewsScraper.extract_summary,
    categories := NewsScraper.extract_categories }

/-- `NewsScraper.fetch_article` (lines 177-211): fetch, parse, extract;
any exception is caught, logged (`Error fetching article {url}: {e}`) and
turned into `None`. Returns the result together with the log records it
emits. -/
def fetch_article (ex : Extractors) (domain : String)
    (http : String → Except String HttpResponse) (url : String) :
    Option NewsArticle × List String :=
  match make_request http url with
  | .error e => (none, ["Error fetching article " ++ url ++ ": " ++ e])
  | .ok response =>
    (some { title := ex.title response.body, content := ex.content response.body,
            url := url, source := domain,
            author := ex.author response.body, date := ex.date response.body,
            summary := ex.summary response.body,
            categories := ex.categories response.body }, [])

/-- The accumulation loop of `fetch_latest_articles` (lines 227-234):
append each successful article, breaking once `len(articles) >= limit`
right after an append. Also accumulates the log records. -/
def fetchLoop (f : String → Option NewsArticle × List String) (limit : Nat) :
    List String → List NewsArticle → List String →
    List NewsArticle × List String
  | [], acc, logs => (acc, logs)
  | url :: rest, acc, logs =>
    match f url with
    | (none, lg) => fetchLoop f limit rest acc (logs ++ lg)
    | (some article, lg) =>
      let acc' := acc ++ [article]
      if limit ≤ acc'.length then (acc', logs ++ lg)
      else fetchLoop f limit rest acc' (logs ++ lg)

/-- `NewsScraper.fetch_latest_articles` (lines 213-239), parameterized by
the URL list its `self._get_article_urls(limit)` call produced. -/
def fetch_latest_articles (ex : Extractors) (domain : String)
    (http : String → Except String HttpResponse)
    (article_urls : List String) (limit : Nat) :
    List NewsArticle × List String :=
  fetchLoop (fetch_article ex domain http) limit article_urls [] []

/-! ## URL discovery -/

/-- The `href` values of `soup.find_all('a', href=True)`, in document
order. -/
def hrefsOf (soup : List HNode) : List String :=
  (findAllList (fun n => isTag "a" n && hasAttr n "href") soup).filterMap
    (fun n => getAttr n "href")

/-- The NYTimes base URL. -/
def nytBase : String := "https://www.nytimes.com"

/-- The collection loop of `NYTimesScraper._get_article_urls`
(lines 355-368): keep relative hrefs containing `/2023/` or `/2024/`,
prefix the base URL, skip exact duplicates of already collected full URLs,
break once `len(article_links) >= limit` right after an append. -/
def nytCollect (limit : Nat) : List String → List String → List String
  | [], article_links => article_links
  | href :: rest, article_links =>
    if pyStartsWith href "/" &&
        (pyContains href "/2023/" || pyContains href "/2024/") then
      let full_url := nytBase ++ href
      if full_url ∈ article_links then nytCollect limit rest article_links
      else
        if limit ≤ article_links.length + 1 then article_links ++ [full_url]
        else nytCollect limit rest (article_links ++ [full_url])
    else nytCollect limit rest article_links

/-- `NYTimesScraper._get_article_urls` (lines 349-372): fetch the front
page, collect; any exception yields `[]`. -/
def NYTimesScraper.get_article_urls
    (http : String → Except String HttpResponse) (limit : Nat) : List String :=
  match make_request http nytBase with
  | .error _ => []
  | .ok response => nytCollect limit (hrefsOf response.body) []

/-- The BBC base URL. -/
def bbcBase : String := "https://www.bbc.com/news"

/-- The collection loop of `BBCScraper._get_article_urls` (lines 417-430):
keep hrefs starting with `/news/` and containing `-`; the duplicate check
compares the raw href against the list of already collected (normalized)
URLs; normalization prefixes `https://www.bbc.com` when the href does not
start with `http`; break once `len(article_links) >= limit` right after an
append. -/
def bbcCollect (limit : Nat) : List String → List String → List String
  | [], article_links => article_links
  | href :: rest, article_links =>
    if pyStartsWith href "/news/" && pyContains href "-" then
      if href ∈ article_links then bbcCollect limit rest article_links
      else
        let href' := if pyStartsWith href "http" then href
                     else "https://www.bbc.com" ++ href
        if limit ≤ article_links.length + 1 then article_links ++ [href']
        else bbcCollect limit rest (article_links ++ [href'])
    else bbcCollect limit rest article_links

/-- `BBCScraper._get_article_urls` (lines 411-435). -/
def BBCScraper.get_article_urls
    (http : String → Except String HttpResponse) (limit : Nat) : List String :=
  match make_request http bbcBase with
  | .error _ => []
  | .ok response => bbcCollect limit (hrefsOf response.body) []

/-- `NYTimesScraper.fetch_latest_articles`: the inherited orchestration
composed with the NYTimes discovery and strategy. -/
def NYTimesScraper.fetch_latest_articles
    (http : String → Except String HttpResponse) (limit : Nat) :
    List NewsArticle × List String :=
  NS.fetch_latest_articles nytExtractors "www.nytimes.com" http
    (NYTimesScraper.get_article_urls http limit) limit

/-! ## Rate limiting

`_respect_rate_limit` (lines 139-149) reads the clock, sleeps
`rate_limit - elapsed` when the time since the last request is below
`rate_limit`, and then stores a fresh clock reading as the new
`last_request_time`. The wall clock is modelled by the parameters: `now`
is the first `time.time()` reading, and `slop ≥ 0` is the extra real time
the sleep and the second `time.time()` reading take beyond the requested
sleep duration. -/

/-- Mutable pacing state of a scraper (`last_request_time`, `rate_limit`). -/
structure RateState where
  lastRequestTime : ℚ
  rateLimit : ℚ

/-- The default politeness interval (`rate_limit: float = 1.0`). -/
def defaultRateLimit : ℚ := 1

/-- `NewsScraper._respect_rate_limit`, one invocation. -/
def respect_rate_limit (now slop : ℚ) (st : RateState) : RateState :=
  let time_since_last_request := now - st.lastRequestTime
  let sleep_time :=
    if time_since_last_request < st.rateLimit then
      st.rateLimit - time_since_last_request
    else 0
  { st with lastRequestTime := now + sleep_time + slop }

/-- The recorded request start times of a sequence of `_make_request`
calls: each event is a `(now, slop)` pair for one `_respect_rate_limit`
invocation; the request departs at the updated `last_request_time`. -/
def requestTimes (st : RateState) : List (ℚ × ℚ) → List ℚ
  | [] => []
  | (now, slop) :: rest =>
    let st' := respect_rate_limit now slop st
    st'.lastRequestTime :: requestTimes st' rest

/-! ## Concrete inputs used by witnesses and counterexamples -/

/-- A small article page: one `h1` and one `p`. -/
def demoArticlePage : List HNode :=
  [HNode.elem "h1" [] [HNode.text "A headline"],
   HNode.elem "p" [] [HNode.text "Body."]]

/-- An HTTP oracle that always succeeds with the demo article page. -/
def demoOkHttp : String → Except String HttpResponse :=
  fun _ => Except.ok ⟨200, demoArticlePage⟩

/-- An HTTP oracle that always answers with status 404. -/
def http404 : String → Except String HttpResponse :=
  fun _ => Except.ok ⟨404, []⟩

/-- A NYTimes front page with one qualifying article link, articles
served for every other URL. -/
def demoFrontHttp : String → Except String HttpResponse := fun url =>
  if url = nytBase then
    Except.ok ⟨200, [HNode.elem "a" [("href", "/2024/a")] []]⟩
  else Except.ok ⟨200, demoArticlePage⟩

/-- A NYTimes front page with five distinct qualifying article links. -/
def nytFront5Http : String → Except String HttpResponse := fun url =>
  if url = nytBase then
    Except.ok ⟨200,
      [HNode.elem "a" [("href", "/2024/a")] [],
       HNode.elem "a" [("href", "/2024/b")] [],
       HNode.elem "a" [("href", "/2024/c")] [],
       HNode.elem "a" [("href", "/2024/d")] [],
       HNode.elem "a" [("href", "/2024/e")] []]⟩
  else Except.error "network"

/-- A BBC front page listing the same relative article href twice. -/
def bbcDupHttp : String → Except String HttpResponse := fun url =>
  if url = bbcBase then
    Except.ok ⟨200,
      [HNode.elem "a" [("href", "/news/world-1")] [],
       HNode.elem "a" [("href", "/news/world-1")] []]⟩
  else Except.error "network"

/-- A NYTimes front page whose only link is a 2025 article. -/
def nyt2025Http : String → Except String HttpResponse := fun url =>
  if url = nytBase then
    Except.ok ⟨200, [HNode.elem "a" [("href", "/2025/03/01/world/story.html")] []]⟩
  else Except.error "network"

/-- The title element `NYTimesScraper._extract_title` selects: the
headline-testid `h1`, else the first `h1`. -/
def NYTimesScraper.titleTag (soup : List HNode) : Option HNode :=
  match findTagAttr "h1" "data-testid" "headline" soup with
  | some t => some t
  | none => findTag "h1" soup

/-- An article page whose `h1` elements are empty. -/
def emptyTitlePage : List HNode :=
  [HNode.elem "h1" [] [],
   HNode.elem "h1" [("id", "main-heading")] []]

/-- An article page whose first paragraph has no text. -/
def emptyParagraphPage : List HNode :=
  [HNode.elem "p" [] [], HNode.elem "p" [] [HNode.text "hello"]]

/-- An article page with a Zulu-suffixed `datetime` attribute. -/
def demoDatePage : List HNode :=
  [HNode.elem "time" [("datetime", "2024-03-01T12:00:00Z")] []]

/-- An article page with a malformed `datetime` attribute. -/
def demoBadDatePage : List HNode :=
  [HNode.elem "time" [("datetime", "not-a-date")] []]

/-- A fully populated article used by the serialization witness. -/
def demoArticle : NewsArticle :=
  { title := "T", content := "C", url := "https://example.com/a",
    source := "example.com", author := some "A",
    date := some ⟨2024, 3, 1, 12, 0, 0, some (-330)⟩,
    summary := none, categories := ["x", "y"] }

/-! ## Lemmas -/

/-- One `_respect_rate_limit` invocation moves `last_request_time` forward
by at least `rate_limit`, for any clock reading and nonnegative slop. -/
lemma respect_rate_limit_gap (now slop : ℚ) (st : RateState) (hs : 0 ≤ slop) :
    st.lastRequestTime + st.rateLimit ≤
      (respect_rate_limit now slop st).lastRequestTime := by
  unfold respect_rate_limit
  dsimp only
  split
  · linarith
  · rename_i hge
    push_neg at hge
    linarith

lemma respect_rate_limit_rateLimit (now slop : ℚ) (st : RateState) :
    (respect_rate_limit now slop st).rateLimit = st.rateLimit := rfl

/-- Consecutive recorded request times are at least `rate_limit` apart. -/
lemma requestTimes_chain :
    ∀ (events : List (ℚ × ℚ)) (st : RateState),
      (∀ p ∈ events, 0 ≤ p.2) →
      List.Chain' (fun a b : ℚ => st.rateLimit ≤ b - a) (requestTimes st events)
  | [], _, _ => by simp [requestTimes]
  | (now, slop) :: rest, st, h => by
    rw [requestTimes, List.chain'_cons']
    refine ⟨?_, ?_⟩
    · intro b hb
      match rest, hb with
      | (now2, slop2) :: rest2, hb =>
        simp only [requestTimes, List.head?_cons, Option.mem_def,
          Option.some.injEq] at hb
        subst hb
        have := respect_rate_limit_gap now2 slop2 (respect_rate_limit now slop st)
          (h (now2, slop2) (by simp))
        simp only [respect_rate_limit_rateLimit] at this
        linarith
    · have := requestTimes_chain rest (respect_rate_limit now slop st)
        (fun p hp => h p (List.mem_cons_of_mem _ hp))
      simpa [respect_rate_limit_rateLimit] using this

/-- The articles side of `fetchLoop` is the successful fetches in order,
truncated to `limit`, as long as the accumulator is still under the limit. -/
lemma fetchLoop_eq (f : String → Option NewsArticle × List String) (limit : Nat) :
    ∀ (urls : List String) (acc : List NewsArticle) (logs : List String),
      acc.length < limit →
      (fetchLoop f limit urls acc logs).1 =
        acc ++ (urls.filterMap (fun u => (f u).1)).take (limit - acc.length)
  | [], acc, logs, _ => by simp [fetchLoop]
  | url :: rest, acc, logs, hlt => by
    rcases hfu : f url with ⟨o, lg⟩
    rw [fetchLoop, hfu]
    simp only [List.filterMap_cons, hfu]
    rcases o with _ | article
    · exact fetchLoop_eq f limit rest acc (logs ++ lg) hlt
    · dsimp only
      have hlen : (acc ++ [article]).length = acc.length + 1 := by simp
      split_ifs with hle
      · have h1 : limit - acc.length = 1 := by omega
        simp [h1]
      · have hlt' : (acc ++ [article]).length < limit := by omega
        rw [fetchLoop_eq f limit rest (acc ++ [article]) (logs ++ lg) hlt']
        have h1 : limit - acc.length = (limit - (acc ++ [article]).length) + 1 := by
          rw [hlen]; omega
        rw [h1, List.take_succ_cons, List.append_assoc, List.singleton_append]


/-- Every article produced by `fetchLoop` is in the accumulator or comes
from a successful fetch of one of the remaining URLs. -/
lemma fetchLoop_mem (f : String → Option NewsArticle × List String) (limit : Nat) :
    ∀ (urls : List String) (acc : List NewsArticle) (logs : List String)
      (a : NewsArticle), a ∈ (fetchLoop f limit urls acc logs).1 →
      a ∈ acc ∨ ∃ u, u ∈ urls ∧ (f u).1 = some a
  | [], acc, logs, a, ha => by simp [fetchLoop] at ha; exact Or.inl ha
  | url :: rest, acc, logs, a, ha => by
    rcases hfu : f url with ⟨o, lg⟩
    rw [fetchLoop, hfu] at ha
    rcases o with _ | article
    · rcases fetchLoop_mem f limit rest acc (logs ++ lg) a ha with h | ⟨u, hu, hfa⟩
      · exact Or.inl h
      · exact Or.inr ⟨u, List.mem_cons_of_mem _ hu, hfa⟩
    · dsimp only at ha
      by_cases hle : limit ≤ (acc ++ [article]).length
      · rw [if_pos hle] at ha
        rcases List.mem_append.mp ha with h | h
        · exact Or.inl h
        · simp at h
          exact Or.inr ⟨url, List.mem_cons_self _ _, by rw [hfu, h]⟩
      · rw [if_neg hle] at ha
        rcases fetchLoop_mem f limit rest (acc ++ [article]) (logs ++ lg) a ha with
          h | ⟨u, hu, hfa⟩
        · rcases List.mem_append.mp h with h' | h'
          · exact Or.inl h'
          · simp at h'
            exact Or.inr ⟨url, List.mem_cons_self _ _, by rw [hfu, h']⟩
        · exact Or.inr ⟨u, List.mem_cons_of_mem _ hu, hfa⟩

/-- A successful `fetch_article` stamps the requested URL on the article. -/
lemma fetch_article_url (ex : Extractors) (domain : String)
    (http : String → Except String HttpResponse) (u : String) (a : NewsArticle)
    (h : (fetch_article ex domain http u).1 = some a) : a.url = u := by
  unfold fetch_article at h
  rcases hm : make_request http u with e | r
  · rw [hm] at h
    simp at h
  · rw [hm] at h
    simp only [Option.some.injEq] at h
    rw [← h]

/-- The NYTimes URL collection loop never grows past `limit` when the
accumulator is still under it. -/
lemma nytCollect_length (limit : Nat) :
    ∀ (hrefs acc : List String), acc.length < limit →
      (nytCollect limit hrefs acc).length ≤ limit
  | [], acc, hlt => by rw [nytCollect]; omega
  | href :: rest, acc, hlt => by
    rw [nytCollect]
    dsimp only
    split_ifs with h1 h2 h3
    · exact nytCollect_length limit rest acc hlt
    · simp only [List.length_append, List.length_singleton]; omega
    · exact nytCollect_length limit rest (acc ++ [nytBase ++ href])
        (by simp only [List.length_append, List.length_singleton]; omega)
    · exact nytCollect_length limit rest acc hlt

/-- The BBC URL collection loop never grows past `limit` when the
accumulator is still under it. -/
lemma bbcCollect_length (limit : Nat) :
    ∀ (hrefs acc : List String), acc.length < limit →
      (bbcCollect limit hrefs acc).length ≤ limit
  | [], acc, hlt => by rw [bbcCollect]; omega
  | href :: rest, acc, hlt => by
    rw [bbcCollect]
    dsimp only
    split_ifs with h1 h2 h3 h4 h5
    · exact bbcCollect_length limit rest acc hlt
    · simp only [List.length_append, List.length_singleton]; omega
    · simp only [List.length_append, List.length_singleton]; omega
    · exact bbcCollect_length limit rest (acc ++ [href])
        (by simp only [List.length_append, List.length_singleton]; omega)
    · exact bbcCollect_length limit rest (acc ++ ["https://www.bbc.com" ++ href])
        (by simp only [List.length_append, List.length_singleton]; omega)
    · exact bbcCollect_length limit rest acc hlt

/-- `listIsInfix` is preserved by prepending to the haystack. -/
lemma listIsInfix_append (n : List Char) :
    ∀ (pre t : List Char), listIsInfix n t = true →
      listIsInfix n (pre ++ t) = true
  | [], t, h => h
  | c :: pre, t, h => by
    rw [List.cons_append, listIsInfix]
    rw [listIsInfix_append n pre t h]
    simp

/-- A string starts with any string prepended to it. -/
lemma pyStartsWith_append (a b : String) : pyStartsWith (a ++ b) a = true := by
  unfold pyStartsWith
  rw [String.data_append, List.isPrefixOf_iff_prefix]
  exact List.prefix_append a.data b.data

/-- Substring containment is preserved by prepending. -/
lemma pyContains_append (a b n : String) (h : pyContains b n = true) :
    pyContains (a ++ b) n = true := by
  unfold pyContains at h ⊢
  rw [String.data_append]
  exact listIsInfix_append n.data a.data b.data h

/-- Every URL the NYTimes collection loop adds is the base URL plus a
relative href containing `/2023/` or `/2024/`. -/
lemma nytCollect_mem (limit : Nat) :
    ∀ (hrefs acc : List String),
      (∀ v ∈ acc, pyStartsWith v nytBase = true ∧
        (pyContains v "/2023/" = true ∨ pyContains v "/2024/" = true)) →
      ∀ u ∈ nytCollect limit hrefs acc,
        pyStartsWith u nytBase = true ∧
        (pyContains u "/2023/" = true ∨ pyContains u "/2024/" = true)
  | [], acc, hacc => by rw [nytCollect]; exact hacc
  | href :: rest, acc, hacc => by
    rw [nytCollect]
    dsimp only
    split_ifs with h1 h2 h3
    · exact nytCollect_mem limit rest acc hacc
    · rw [Bool.and_eq_true, Bool.or_eq_true] at h1
      intro v hv
      rcases List.mem_append.mp hv with h | h
      · exact hacc v h
      · simp only [List.mem_singleton] at h
        subst h
        refine ⟨pyStartsWith_append nytBase href, ?_⟩
        rcases h1.2 with h | h
        · exact Or.inl (pyContains_append nytBase href _ h)
        · exact Or.inr (pyContains_append nytBase href _ h)
    · rw [Bool.and_eq_true, Bool.or_eq_true] at h1
      refine nytCollect_mem limit rest (acc ++ [nytBase ++ href]) ?_
      intro v hv
      rcases List.mem_append.mp hv with h | h
      · exact hacc v h
      · simp only [List.mem_singleton] at h
        subst h
        refine ⟨pyStartsWith_append nytBase href, ?_⟩
        rcases h1.2 with h | h
        · exact Or.inl (pyContains_append nytBase href _ h)
        · exact Or.inr (pyContains_append nytBase href _ h)
    · exact nytCollect_mem limit rest acc hacc

lemma digitChar_isDigit (k : Nat) (h : k ≤ 9) : (digitChar k).isDigit = true := by
  interval_cases k <;> decide

lemma digitChar_toNat (k : Nat) (h : k ≤ 9) : (digitChar k).toNat = 48 + k := by
  interval_cases k <;> decide

/-- Parsing two digits inverts two-digit rendering. -/
lemma parse2_digits2 (n : Nat) (h : n ≤ 99) (rest : List Char) :
    parse2 (digits2 n ++ rest) = some (n, rest) := by
  have h1 : n / 10 ≤ 9 := by omega
  have h2 : n % 10 ≤ 9 := by omega
  simp [digits2, parse2, digitChar_isDigit _ h1, digitChar_isDigit _ h2,
    digitChar_toNat _ h1, digitChar_toNat _ h2]
  omega

/-- Two-digit parsing of a bare rendering. -/
lemma parse2_digits2_nil (n : Nat) (h : n ≤ 99) :
    parse2 (digits2 n) = some (n, []) := by
  have := parse2_digits2 n h []
  rwa [List.append_nil] at this

/-- Parsing four digits inverts four-digit rendering. -/
lemma parse4_digits4 (n : Nat) (h : n ≤ 9999) (rest : List Char) :
    parse4 (digits4 n ++ rest) = some (n, rest) := by
  have h1 : n / 100 ≤ 99 := by omega
  have h2 : n % 100 ≤ 99 := by omega
  have h3 : n / 100 * 100 + n % 100 = n := by omega
  simp only [digits4, List.append_assoc, parse4, parse2_digits2 _ h1,
    parse2_digits2 _ h2, h3]

lemma expectChar_cons (c : Char) (rest : List Char) :
    expectChar c (c :: rest) = some rest := by simp [expectChar]

/-- Parsing the offset tail inverts offset rendering for in-range
offsets. -/
lemma parseOffsetPart_offsetChars (off : Option Int)
    (h : ∀ m ∈ off, -1439 ≤ m ∧ m ≤ 1439) :
    parseOffsetPart (offsetChars off) = some off := by
  rcases off with _ | m
  · rfl
  · obtain ⟨hlo, hhi⟩ := h m rfl
    have hd : m.natAbs / 60 ≤ 99 := by omega
    have hmm : m.natAbs % 60 ≤ 99 := by omega
    have h23 : m.natAbs / 60 ≤ 23 := by omega
    have h59 : m.natAbs % 60 ≤ 59 := by omega
    by_cases hneg : m < 0
    · simp only [offsetChars, if_pos hneg, parseOffsetPart,
        parse2_digits2 _ hd, expectChar_cons, parse2_digits2_nil _ hmm]
      norm_num [h23, h59]
      rw [if_neg (by decide : ¬ ('-' : Char) = '+')]
      simp only [Int.abs_eq_natAbs]
      omega
    · simp only [offsetChars, if_neg hneg, parseOffsetPart,
        parse2_digits2 _ hd, expectChar_cons, parse2_digits2_nil _ hmm]
      norm_num [h23, h59]
      simp only [Int.abs_eq_natAbs]
      omega

/-- Parsing the time part inverts time rendering for in-range fields. -/
lemma parseTimePart_format (y mo dd : Nat) (d : PyDatetime)
    (hh : d.hour ≤ 23) (hmi : d.minute ≤ 59) (hs : d.second ≤ 59)
    (hoff : ∀ m ∈ d.tzOffsetMinutes, -1439 ≤ m ∧ m ≤ 1439) :
    parseTimePart y mo dd (timeChars d) =
      some ⟨y, mo, dd, d.hour, d.minute, d.second, d.tzOffsetMinutes⟩ := by
  have e1 := parse2_digits2 d.hour (by omega)
    (':' :: (digits2 d.minute ++ (':' :: (digits2 d.second ++
      offsetChars d.tzOffsetMinutes))))
  have e2 := parse2_digits2 d.minute (by omega)
    (':' :: (digits2 d.second ++ offsetChars d.tzOffsetMinutes))
  have e3 := parse2_digits2 d.second (by omega) (offsetChars d.tzOffsetMinutes)
  simp only [timeChars, parseTimePart, e1, expectChar_cons, e2, e3,
    parseOffsetPart_offsetChars d.tzOffsetMinutes hoff]
  rw [if_pos ⟨hh, hmi, hs⟩]

/-- Months have at most 31 days. -/
lemma daysInMonth_le (y m : Nat) : daysInMonth y m ≤ 31 := by
  unfold daysInMonth
  split_ifs <;> omega

/-- `fromisoformat` inverts `isoformat` on every valid datetime. -/
lemma fromiso_isoformat (d : PyDatetime) (hv : d.valid) :
    fromisoformat (isoformat d) = some d := by
  obtain ⟨h1, h2, h3, h4, h5, h6, h7, h8, h9, h10⟩ := hv
  have hdm := daysInMonth_le d.year d.month
  have e1 := parse4_digits4 d.year (by omega)
    ('-' :: (digits2 d.month ++ ('-' :: (digits2 d.day ++ ('T' :: timeChars d)))))
  have e2 := parse2_digits2 d.month (by omega)
    ('-' :: (digits2 d.day ++ ('T' :: timeChars d)))
  have e3 := parse2_digits2 d.day (by omega) ('T' :: timeChars d)
  show fromisoChars (isoformatChars d) = _
  simp only [isoformatChars, fromisoChars, e1, expectChar_cons, e2, e3]
  rw [if_pos ⟨h1, h3, h4, h5, h6⟩]
  simp [parseTimePart_format d.year d.month d.day d h7 h8 h9 h10]

/-! ## Claim theorems -/

/-- C1 (amended): for every limit ≥ 1 and every discovered URL list,
`fetch_latest_articles` returns exactly the successful `fetch_article`
results in discovery order, truncated to `limit` (so failures are skipped,
iteration stops once `limit` articles are accumulated, and the result
length is ≤ `limit`). For `limit = 0` the append-then-check loop overshoots
by one (see the counterexample). -/
theorem fetch_latest_filterMap_take (ex : Extractors) (domain : String)
    (http : String → Except String HttpResponse) (urls : List String)
    (limit : Nat) (hlim : 1 ≤ limit) :
    (fetch_latest_articles ex domain http urls limit).1 =
      (urls.filterMap (fun u => (fetch_article ex domain http u).1)).take limit ∧
    (fetch_latest_articles ex domain http urls limit).1.length ≤ limit := by
  have h := fetchLoop_eq (fetch_article ex domain http) limit urls [] []
    (by simp; omega)
  simp only [Nat.sub_zero, List.nil_append] at h
  rw [fetch_latest_articles, h]
  exact ⟨rfl, List.length_take_le limit _⟩

/-- Witness for C1 at `limit = 2` over three URLs that all succeed. -/
theorem fetch_latest_filterMap_take_witness :
    (1 : Nat) ≤ 2 ∧
    ((fetch_latest_articles genericExtractors "example.com" demoOkHttp
        ["u1", "u2", "u3"] 2).1 =
      ((["u1", "u2", "u3"] : List String).filterMap
        (fun u => (fetch_article genericExtractors "example.com" demoOkHttp u).1)).take 2 ∧
     (fetch_latest_articles genericExtractors "example.com" demoOkHttp
        ["u1", "u2", "u3"] 2).1.length ≤ 2) :=
  ⟨by decide,
   fetch_latest_filterMap_take genericExtractors "example.com" demoOkHttp
     ["u1", "u2", "u3"] 2 (by decide)⟩

/-- Counterexample to C1 as stated: with `limit = 0` and a front page
holding one qualifying link that fetches successfully, the batch holds one
article, so its length exceeds the limit. -/
theorem fetch_latest_limit_zero_overshoot :
    (NYTimesScraper.fetch_latest_articles demoFrontHttp 0).1.length = 1 ∧
    ¬ (NYTimesScraper.fetch_latest_articles demoFrontHttp 0).1.length ≤ 0 := by
  decide

/-- C2: when the fetch of a URL fails (transport error or non-2xx status),
`fetch_article` returns `None` together with a log record naming the URL
and the cause, and `fetch_latest_articles` omits that URL from its batch
instead of aborting. Both functions are total, so no failure escapes them. -/
theorem fetch_failure_degrades (ex : Extractors) (domain : String)
    (http : String → Except String HttpResponse) (url e : String)
    (urls : List String) (limit : Nat)
    (hfail : make_request http url = Except.error e) :
    fetch_article ex domain http url =
      (none, ["Error fetching article " ++ url ++ ": " ++ e]) ∧
    ∀ a ∈ (fetch_latest_articles ex domain http urls limit).1, a.url ≠ url := by
  have h1 : fetch_article ex domain http url =
      (none, ["Error fetching article " ++ url ++ ": " ++ e]) := by
    unfold fetch_article
    rw [hfail]
  refine ⟨h1, ?_⟩
  intro a ha heq
  rcases fetchLoop_mem (fetch_article ex domain http) limit urls [] [] a ha with
    h | ⟨u, _, hfa⟩
  · simp at h
  · have hau := fetch_article_url ex domain http u a hfa
    rw [hau] at heq
    rw [heq, h1] at hfa
    simp at hfa

/-- Witness for C2: a 404 response degrades to `None` plus a log record,
and the batch omits the URL. -/
theorem fetch_failure_degrades_witness :
    make_request http404 "https://x/a" =
      Except.error "HTTP error 404 for url" ∧
    (fetch_article genericExtractors "x" http404 "https://x/a" =
      (none, ["Error fetching article https://x/a: HTTP error 404 for url"]) ∧
     ∀ a ∈ (fetch_latest_articles genericExtractors "x" http404
        ["https://x/a"] 10).1, a.url ≠ "https://x/a") :=
  ⟨rfl,
   fetch_failure_degrades genericExtractors "x" http404 "https://x/a"
     "HTTP error 404 for url" ["https://x/a"] 10 rfl⟩

/-- C3 (bug evidence): the BBC discovery loop compares the raw relative
href against the list of already collected normalized URLs, so a front
page listing the same href twice yields the same URL twice. -/
theorem bbc_discovery_duplicate :
    BBCScraper.get_article_urls bbcDupHttp 10 =
      ["https://www.bbc.com/news/world-1", "https://www.bbc.com/news/world-1"] ∧
    ¬ (BBCScraper.get_article_urls bbcDupHttp 10).Nodup := by
  decide

/-- C4: across any sequence of sequential `_make_request` pacing steps
with nonnegative timer slop, consecutive recorded request start times are
at least `rate_limit` apart; the default interval is 1.0. -/
theorem pacing_invariant (st : RateState) (events : List (ℚ × ℚ))
    (hslop : ∀ p ∈ events, 0 ≤ p.2) :
    List.Chain' (fun a b : ℚ => st.rateLimit ≤ b - a)
      (requestTimes st events) ∧ defaultRateLimit = 1 :=
  ⟨requestTimes_chain events st hslop, rfl⟩

/-- Witness for C4 on a concrete three-request schedule. -/
theorem pacing_invariant_witness :
    (∀ p ∈ [((5 : ℚ), (0 : ℚ)), (5, 0), (7, 0)], 0 ≤ p.2) ∧
    (List.Chain' (fun a b : ℚ => (⟨0, 1⟩ : RateState).rateLimit ≤ b - a)
      (requestTimes ⟨0, 1⟩ [(5, 0), (5, 0), (7, 0)]) ∧
     defaultRateLimit = 1) :=
  ⟨by decide, pacing_invariant ⟨0, 1⟩ [(5, 0), (5, 0), (7, 0)] (by decide)⟩

/-- C7 (amended): for every front page and every limit ≥ 1, both discovery
variants return at most `limit` URLs, and on a front page with five
distinct qualifying links and limit 3 the NYTimes variant returns exactly
the first three, in document order. For `limit = 0` the append-then-check
loop overshoots by one (see the counterexample). -/
theorem discovery_limit_amended (http : String → Except String HttpResponse)
    (limit : Nat) (hlim : 1 ≤ limit) :
    (NYTimesScraper.get_article_urls http limit).length ≤ limit ∧
    (BBCScraper.get_article_urls http limit).length ≤ limit ∧
    NYTimesScraper.get_article_urls nytFront5Http 3 =
      ["https://www.nytimes.com/2024/a", "https://www.nytimes.com/2024/b",
       "https://www.nytimes.com/2024/c"] := by
  refine ⟨?_, ?_, by decide⟩
  · unfold NYTimesScraper.get_article_urls
    split
    · simp
    · exact nytCollect_length limit _ [] (by simp; omega)
  · unfold BBCScraper.get_article_urls
    split
    · simp
    · exact bbcCollect_length limit _ [] (by simp; omega)

/-- Witness for C7 at `limit = 3`. -/
theorem discovery_limit_amended_witness :
    (1 : Nat) ≤ 3 ∧
    ((NYTimesScraper.get_article_urls nytFront5Http 3).length ≤ 3 ∧
     (BBCScraper.get_article_urls nytFront5Http 3).length ≤ 3 ∧
     NYTimesScraper.get_article_urls nytFront5Http 3 =
       ["https://www.nytimes.com/2024/a", "https://www.nytimes.com/2024/b",
        "https://www.nytimes.com/2024/c"]) :=
  ⟨by decide, discovery_limit_amended nytFront5Http 3 (by decide)⟩

/-- Counterexample to C7 as stated: at `limit = 0` the NYTimes discovery
returns one URL, exceeding the limit. -/
theorem discovery_limit_zero_overshoot :
    NYTimesScraper.get_article_urls nytFront5Http 0 =
      ["https://www.nytimes.com/2024/a"] ∧
    ¬ (NYTimesScraper.get_article_urls nytFront5Http 0).length ≤ 0 := by
  decide

/-- C10: every URL the NYTimes discovery returns starts with the base URL
and contains the literal segment `/2023/` or `/2024/`; a front page whose
only link is a 2025 article yields no URLs. -/
theorem nyt_discovery_url_shape :
    (∀ (http : String → Except String HttpResponse) (limit : Nat)
       (u : String), u ∈ NYTimesScraper.get_article_urls http limit →
       pyStartsWith u nytBase = true ∧
       (pyContains u "/2023/" = true ∨ pyContains u "/2024/" = true)) ∧
    NYTimesScraper.get_article_urls nyt2025Http 10 = [] := by
  constructor
  · intro http limit u hu
    unfold NYTimesScraper.get_article_urls at hu
    split at hu
    · simp at hu
    · exact nytCollect_mem limit _ [] (by simp) u hu
  · decide

/-- Witness for C10: a concrete discovered URL has the required shape. -/
theorem nyt_discovery_url_shape_witness :
    "https://www.nytimes.com/2024/a" ∈
      NYTimesScraper.get_article_urls nytFront5Http 3 ∧
    (pyStartsWith "https://www.nytimes.com/2024/a" nytBase = true ∧
     (pyContains "https://www.nytimes.com/2024/a" "/2023/" = true ∨
      pyContains "https://www.nytimes.com/2024/a" "/2024/" = true)) :=
  ⟨by decide,
   nyt_discovery_url_shape.1 nytFront5Http 3 "https://www.nytimes.com/2024/a"
     (by decide)⟩

/-- C5 (amended): for every source variant, `extract_title` never returns
an undefined result: with no matching title element it returns the
sentinel `"Unknown Title"`, and otherwise the matched element's stripped
text, which may be empty (see the counterexample). -/
theorem extract_title_sentinel (soup : List HNode) :
    (findTag "h1" soup = none →
      NewsScraper.extract_title soup = "Unknown Title") ∧
    (∀ t, findTag "h1" soup = some t →
      NewsScraper.extract_title soup = pyStrip (nodeText t)) ∧
    (NYTimesScraper.titleTag soup = none →
      NYTimesScraper.extract_title soup = "Unknown Title") ∧
    (∀ t, NYTimesScraper.titleTag soup = some t →
      NYTimesScraper.extract_title soup = pyStrip (nodeText t)) ∧
    (findTagAttr "h1" "id" "main-heading" soup = none →
      BBCScraper.extract_title soup = "Unknown Title") ∧
    (∀ t, findTagAttr "h1" "id" "main-heading" soup = some t →
      BBCScraper.extract_title soup = pyStrip (nodeText t)) := by
  have hnyt : NYTimesScraper.extract_title soup =
      match NYTimesScraper.titleTag soup with
      | some t => pyStrip (nodeText t)
      | none => "Unknown Title" := rfl
  refine ⟨?_, ?_, ?_, ?_, ?_, ?_⟩
  · intro h
    unfold NewsScraper.extract_title
    rw [h]
  · intro t h
    unfold NewsScraper.extract_title
    rw [h]
  · intro h
    rw [hnyt, h]
  · intro t h
    rw [hnyt, h]
  · intro h
    unfold BBCScraper.extract_title
    rw [h]
  · intro t h
    unfold BBCScraper.extract_title
    rw [h]

/-- Witness for C5: on an empty document every variant returns the
sentinel. -/
theorem extract_title_sentinel_witness :
    NewsScraper.extract_title [] = "Unknown Title" ∧
    NYTimesScraper.extract_title [] = "Unknown Title" ∧
    BBCScraper.extract_title [] = "Unknown Title" :=
  ⟨(extract_title_sentinel []).1 rfl,
   (extract_title_sentinel []).2.2.1 rfl,
   (extract_title_sentinel []).2.2.2.2.1 rfl⟩

/-- Counterexample to C5 as stated: a page whose matching `h1` is empty
makes every variant return the empty string, not a nonempty title. -/
theorem extract_title_empty_h1 :
    NewsScraper.extract_title emptyTitlePage = "" ∧
    NYTimesScraper.extract_title emptyTitlePage = "" ∧
    BBCScraper.extract_title emptyTitlePage = "" ∧
    ("" : String) ≠ "Unknown Title" := by
  refine ⟨rfl, rfl, rfl, by decide⟩

/-- C6: both date-extracting variants return absent when there is no
`time` element or no truthy `datetime` attribute, otherwise ISO-parse the
attribute after replacing `Z` with `+00:00` (absent on parse failure, and
never raising since the result is a total `Option`); the documented
scenario and a malformed-date instance are included. -/
theorem extract_date_behavior (soup : List HNode) :
    (findTag "time" soup = none →
      NYTimesScraper.extract_date soup = none ∧
      BBCScraper.extract_date soup = none) ∧
    (∀ t, findTag "time" soup = some t →
      getAttr t "datetime" = none ∨ getAttr t "datetime" = some "" →
      NYTimesScraper.extract_date soup = none ∧
      BBCScraper.extract_date soup = none) ∧
    (∀ t v, findTag "time" soup = some t → getAttr t "datetime" = some v →
      v ≠ "" →
      NYTimesScraper.extract_date soup =
        fromisoformat (pyReplace v "Z" "+00:00") ∧
      BBCScraper.extract_date soup =
        fromisoformat (pyReplace v "Z" "+00:00")) ∧
    (NYTimesScraper.extract_date demoDatePage =
      some ⟨2024, 3, 1, 12, 0, 0, some 0⟩ ∧
     BBCScraper.extract_date demoDatePage =
      some ⟨2024, 3, 1, 12, 0, 0, some 0⟩ ∧
     NYTimesScraper.extract_date demoBadDatePage = none) := by
  refine ⟨?_, ?_, ?_, by decide, by decide, by decide⟩
  · intro h
    simp only [NYTimesScraper.extract_date, BBCScraper.extract_date, h]
    exact ⟨trivial, trivial⟩
  · intro t hf ha
    rcases ha with h | h <;>
      simp [NYTimesScraper.extract_date, BBCScraper.extract_date, hf, h]
  · intro t v hf ha hv
    simp only [NYTimesScraper.extract_date, BBCScraper.extract_date, hf, ha,
      if_neg hv]
    exact ⟨trivial, trivial⟩

/-- Witness for C6: on an empty document both variants return absent. -/
theorem extract_date_behavior_witness :
    NYTimesScraper.extract_date [] = none ∧ BBCScraper.extract_date [] = none :=
  (extract_date_behavior []).1 rfl

/-- C8 (amended): every variant returns the per-block stripped texts of
its matched content blocks joined by single space separators — without
trimming the joined result — and the empty string when no content block
is found. -/
theorem extract_content_join (soup : List HNode) :
    NewsScraper.extract_content soup =
      joinSpace ((findAllTag "p" soup).map (fun p => pyStrip (nodeText p))) ∧
    NYTimesScraper.extract_content soup =
      joinSpace ((NYTimesScraper.contentBlocks soup).map
        (fun p => pyStrip (nodeText p))) ∧
    BBCScraper.extract_content soup =
      joinSpace ((BBCScraper.contentBlocks soup).map
        (fun p => pyStrip (nodeText p))) ∧
    (findAllTag "p" soup = [] → NewsScraper.extract_content soup = "") ∧
    (NYTimesScraper.contentBlocks soup = [] →
      NYTimesScraper.extract_content soup = "") ∧
    (BBCScraper.contentBlocks soup = [] →
      BBCScraper.extract_content soup = "") := by
  have h1 : NewsScraper.extract_content soup =
      joinSpace ((findAllTag "p" soup).map (fun p => pyStrip (nodeText p))) := rfl
  have h2 : NYTimesScraper.extract_content soup =
      joinSpace ((NYTimesScraper.contentBlocks soup).map
        (fun p => pyStrip (nodeText p))) := by
    unfold NYTimesScraper.extract_content NYTimesScraper.contentBlocks
    rcases findTagAttr "section" "name" "articleBody" soup with _ | sec <;> rfl
  have h3 : BBCScraper.extract_content soup =
      joinSpace ((BBCScraper.contentBlocks soup).map
        (fun p => pyStrip (nodeText p))) := by
    unfold BBCScraper.extract_content BBCScraper.contentBlocks
    rcases findTag "article" soup with _ | art <;> rfl
  refine ⟨h1, h2, h3, ?_, ?_, ?_⟩
  · intro h
    rw [h1, h]
    rfl
  · intro h
    rw [h2, h]
    rfl
  · intro h
    rw [h3, h]
    rfl

/-- Witness for C8: on an empty document every variant returns the empty
string. -/
theorem extract_content_join_witness :
    NewsScraper.extract_content [] = "" ∧
    NYTimesScraper.extract_content [] = "" ∧
    BBCScraper.extract_content [] = "" :=
  ⟨(extract_content_join []).2.2.2.1 rfl,
   (extract_content_join []).2.2.2.2.1 rfl,
   (extract_content_join []).2.2.2.2.2 rfl⟩

/-- Counterexample to C8 as stated: with an empty first paragraph the
generic variant returns `" hello"`, which is not trimmed. -/
theorem extract_content_untrimmed :
    NewsScraper.extract_content emptyParagraphPage = " hello" ∧
    pyStrip " hello" ≠ " hello" := by
  refine ⟨rfl, by decide⟩

/-- C9: serializing an Article to the flat record and deserializing back
preserves every field exactly (and in particular `date` up to
timestamp-equality, absent mapping to absent), for every article whose
date satisfies the `datetime` range invariant. -/
theorem to_dict_roundtrip (a : NewsArticle) (hv : ∀ d ∈ a.date, d.valid) :
    from_dict a.to_dict = some a := by
  obtain ⟨t, c, u, s, au, dt, su, cat⟩ := a
  rcases dt with _ | d
  · rfl
  · have hd : d.valid := hv d rfl
    simp [NewsArticle.to_dict, from_dict, fromiso_isoformat d hd]

/-- Witness for C9 on a fully populated article with a negative-offset
date. -/
theorem to_dict_roundtrip_witness :
    (∀ d ∈ demoArticle.date, d.valid) ∧
    from_dict demoArticle.to_dict = some demoArticle :=
  ⟨by intro d hd; simp [demoArticle] at hd; subst hd; decide,
   to_dict_roundtrip demoArticle
     (by intro d hd; simp [demoArticle] at hd; subst hd; decide)⟩

end NS
